import Mathlib

/-!
Verification of the ray-tracing evaluation engine of the
`shindex-rust-tracer-challenge` repository.

The Rust source is shallowly embedded: `f64` is idealised as an ordered
field (`ℚ` where only field operations and comparisons occur, so that
concrete runs are decidable, and `ℝ` where square roots or real powers
appear); Rust `Vec` becomes `List`; fallible operations (`unwrap`,
`todo!()`) become `Option` with `none` for a panic.  Trait objects
(`&dyn Shape`, `Box<dyn Pattern>`) are embedded as records of the trait
methods the call sites use.  `Uuid` identity becomes a `ℕ` identifier
supplied at construction (the Rust code draws a fresh UUID per
`Intersection::new` / `ShapeProps::default`; freshness is modelled by
giving distinct numbers to distinct records).
-/

namespace RT

/-- Model of `Tuple` (src/src/math/tuple.rs): an (x, y, z, w) quadruple of
floats, w = 1 for a point and w = 0 for a direction. -/
structure Tup (K : Type) where
  x : K
  y : K
  z : K
  w : K
deriving Repr

variable {K : Type} [LinearOrderedField K]

/-- `Tuple::point` (math/tuple.rs): w = 1. -/
def Tup.point (x y z : K) : Tup K := ⟨x, y, z, 1⟩

/-- `Tuple::direction` (math/tuple.rs): w = 0. -/
def Tup.dir (x y z : K) : Tup K := ⟨x, y, z, 0⟩

/-- Componentwise `impl Add for Tuple`. -/
instance : Add (Tup K) := ⟨fun a b => ⟨a.x + b.x, a.y + b.y, a.z + b.z, a.w + b.w⟩⟩

/-- Componentwise `impl Sub for Tuple`. -/
instance : Sub (Tup K) := ⟨fun a b => ⟨a.x - b.x, a.y - b.y, a.z - b.z, a.w - b.w⟩⟩

/-- Componentwise `impl Neg for Tuple`. -/
instance : Neg (Tup K) := ⟨fun a => ⟨-a.x, -a.y, -a.z, -a.w⟩⟩

/-- `impl Mul<f64> for Tuple`: scaling every component. -/
instance : HMul (Tup K) K (Tup K) := ⟨fun a s => ⟨a.x * s, a.y * s, a.z * s, a.w * s⟩⟩

/-- `Tuple::dot` (math/tuple.rs). -/
def Tup.dot (a b : Tup K) : K := a.x * b.x + a.y * b.y + a.z * b.z + a.w * b.w

/-- `Tuple::reflect` (math/tuple.rs): `*self - normal * 2. * self.dot(normal)`. -/
def Tup.reflect (v n : Tup K) : Tup K := v - (n * (2 : K)) * (v.dot n)

/-- Model of `Color` (src/src/scene/shading/color.rs). -/
structure Col (K : Type) where
  red : K
  green : K
  blue : K
deriving Repr

/-- Componentwise `impl Add for Color`. -/
instance : Add (Col K) := ⟨fun a b => ⟨a.red + b.red, a.green + b.green, a.blue + b.blue⟩⟩

/-- Hadamard `impl Mul for Color`. -/
instance : Mul (Col K) := ⟨fun a b => ⟨a.red * b.red, a.green * b.green, a.blue * b.blue⟩⟩

/-- `impl Mul<f64> for Color`: scaling every channel. -/
instance : HMul (Col K) K (Col K) := ⟨fun a s => ⟨a.red * s, a.green * s, a.blue * s⟩⟩

/-- `Color::black()`. -/
def blackC : Col K := ⟨0, 0, 0⟩

/-- `Color::white()`. -/
def whiteC : Col K := ⟨1, 1, 1⟩

/-- Model of `Ray` (origin + direction; src/src/ray.rs and the scene tree's
tracing ray). -/
structure Rayt (K : Type) where
  origin : Tup K
  direction : Tup K

/-- `Ray::position`: `origin + direction * time`. -/
def Rayt.position (r : Rayt K) (time : K) : Tup K := r.origin + r.direction * time

/-- Model of `Material` (src/src/scene/shading/material.rs).  The optional
`Box<dyn Pattern>` is embedded as the pattern's colour-at-a-point function
(the only capability `Material::lighting` uses through
`pattern_at_shape`, with the shape/pattern inverse transforms absorbed
into the closure). -/
structure Mat (K : Type) where
  color : Col K
  patternAt : Option (Tup K → Col K)
  ambient : K
  diffuse : K
  specular : K
  shininess : K
  reflective : K
  transparency : K
  refractiveIndex : K

/-- `Material::new()` default values (material.rs lines 22-34). -/
def defaultMat : Mat K :=
  ⟨⟨1, 1, 1⟩, none, 1 / 10, 9 / 10, 9 / 10, 200, 0, 0, 1⟩

/-- Model of a `&dyn Shape` trait object as seen by intersection.rs and
scene/world.rs: a stable identity (`ShapeProps.id`, a `Uuid` in the
source), a material, and the two derived trait methods the call sites
use, `normal_at` (already composed with the shape's transform) and
`intersect` returning the t-values of the hit list. -/
structure Shp (K : Type) where
  id : ℕ
  material : Mat K
  normalAt : Tup K → Tup K
  intersectT : Rayt K → Option (List K)

/-- Model of `Intersection` (src/src/intersection.rs lines 8-22): a fresh
`Uuid` identity, a distance `t` and the intersected object. -/
structure Inter (K : Type) where
  id : ℕ
  t : K
  object : Shp K

/-- `impl PartialEq for Intersection` (intersection.rs lines 109-113):
equality compares only the `Uuid` identities. -/
instance : BEq (Inter K) := ⟨fun a b => a.id == b.id⟩

/-- One step of the loop inside `Intersections::hit` (intersection.rs lines
234-251): keep the running result unless the current intersection has
`t > 0` and the result is empty or has a larger `t`. -/
def hitStep (result : Option (Inter K)) (i : Inter K) : Option (Inter K) :=
  if 0 < i.t then
    match result with
    | some r => if i.t < r.t then some i else some r
    | none => some i
  else result

/-- `Intersections::hit` (intersection.rs lines 234-251): fold the loop
step over the stored items starting from `None`. -/
def hit (xs : List (Inter K)) : Option (Inter K) := xs.foldl hitStep none

/-- Refractive index of the last object of the containers list, `1.0`
when the list is empty (intersection.rs lines 47-57 and 77-87). -/
def lastRefr (containers : List (Shp K)) : K :=
  match containers.getLast? with
  | none => 1
  | some s => s.material.refractiveIndex

/-- The containers update of `prepare_computation` (intersection.rs lines
64-72): find the position of the first container with the same object id;
remove it if present (the ray exits the object), otherwise append the
object at the end (the ray enters it). -/
def toggleContainer (containers : List (Shp K)) (obj : Shp K) : List (Shp K) :=
  match containers.findIdx? (fun s => s.id == obj.id) with
  | some idx => containers.eraseIdx idx
  | none => containers ++ [obj]

/-- The n1/n2 loop of `prepare_computation` (intersection.rs lines 38-91):
walk the intersection list with a containers accumulator; at the target
intersection (`i == self`, i.e. matching `Uuid`) read n1 before and n2
after the containers toggle and stop; if the loop runs out, n1 and n2
keep their initial value `0.0`. -/
def refractScan (self : Inter K) : List (Inter K) → List (Shp K) → K × K
  | [], _ => (0, 0)
  | i :: rest, containers =>
    if i == self then
      (lastRefr containers, lastRefr (toggleContainer containers i.object))
    else refractScan self rest (toggleContainer containers i.object)

/-- `EPSILON` (src/src/math/mod.rs): `0.00001`. -/
def EPS : K := 1 / 100000

/-- Model of `Computation` (intersection.rs lines 115-128). -/
structure Comp (K : Type) where
  t : K
  object : Shp K
  point : Tup K
  overPoint : Tup K
  underPoint : Tup K
  eyeV : Tup K
  normalV : Tup K
  reflectV : Tup K
  inside : Bool
  n1 : K
  n2 : K

/-- `Intersection::prepare_computation` (intersection.rs lines 24-106):
derive the shading frame from the ray and run the containers scan over
the full intersection list `xs` for the refractive indices. -/
def prepareComputation (self : Inter K) (ray : Rayt K) (xs : List (Inter K)) : Comp K :=
  let point := ray.position self.t
  let eyeV := -ray.direction
  let normalV0 := self.object.normalAt point
  let inside : Bool := decide (normalV0.dot eyeV < 0)
  let normalV := if normalV0.dot eyeV < 0 then -normalV0 else normalV0
  let reflectV := ray.direction.reflect normalV
  let overPoint := point + normalV * (EPS : K)
  let underPoint := point - normalV * (EPS : K)
  let ns := refractScan self xs []
  ⟨self.t, self.object, point, overPoint, underPoint, eyeV, normalV, reflectV,
    inside, ns.1, ns.2⟩

/-- Modelled from the spec (§4.3): the containers toggle in the spec's own
words — "toggle the intersected object's membership in the container list
(remove if present — ray is exiting — else append — ray is entering)";
membership and removal are phrased with `any` and `eraseP`. -/
def specToggle (inside : List (Shp K)) (obj : Shp K) : List (Shp K) :=
  if inside.any (fun s => s.id == obj.id) then inside.eraseP (fun s => s.id == obj.id)
  else inside ++ [obj]

/-- Modelled from the spec (§4.3): the refractive index of the last
container, `1.0` if the container list is empty. -/
def specRefr (inside : List (Shp K)) : K :=
  (inside.getLast?).elim 1 (fun s => s.material.refractiveIndex)

/-- Modelled from the spec (§4.3): walk the sorted intersection list from
nearest keeping the list of objects the ray is currently inside; at the
target intersection record n1 before the toggle and n2 after it and stop
the scan. -/
def specScan (target : Inter K) : List (Inter K) → List (Shp K) → K × K
  | [], _ => (0, 0)
  | i :: rest, inside =>
    if i == target then (specRefr inside, specRefr (specToggle inside i.object))
    else specScan target rest (specToggle inside i.object)

/-- A shape standing for `Sphere::new()` on the ℚ side of the model: the
identity is 0, the material is the default one, the local normal of the
origin-centred unit sphere is `point - origin`.  The claims that use it
(hit selection and the refraction scan) read only its identity and its
material. -/
def sphereQ : Shp ℚ :=
  ⟨0, defaultMat, fun p => p - Tup.point 0 0 0, fun _ => none⟩

/-- A glass sphere for the three-overlapping-spheres scenario
(intersection.rs test lines 424-475): `Sphere::glass()` with a chosen
identity and refractive index.  Only the identity and the material are
consulted by the refraction scan; the transforms of the test affect
neither. -/
def glassSphere (id : ℕ) (ri : ℚ) : Shp ℚ :=
  ⟨id, { defaultMat with transparency := 1, refractiveIndex := ri },
    fun p => p - Tup.point 0 0 0, fun _ => none⟩

/-- Sphere `A` of the scenario: refractive index 1.5. -/
def gsA : Shp ℚ := glassSphere 0 (3 / 2)

/-- Sphere `B` of the scenario: refractive index 2.0. -/
def gsB : Shp ℚ := glassSphere 1 2

/-- Sphere `C` of the scenario: refractive index 2.5. -/
def gsC : Shp ℚ := glassSphere 2 (5 / 2)

/-- The six intersections of the three-overlapping-spheres scenario, in
ascending t order, with pairwise distinct identities as `Intersection::new`
would assign. -/
def gsXs : List (Inter ℚ) :=
  [⟨10, 2, gsA⟩, ⟨11, 11 / 4, gsB⟩, ⟨12, 13 / 4, gsC⟩,
   ⟨13, 19 / 4, gsB⟩, ⟨14, 21 / 4, gsC⟩, ⟨15, 6, gsA⟩]

/-- The ray of the three-overlapping-spheres scenario: origin (0,0,-4),
direction (0,0,1). -/
def gsRay : Rayt ℚ := ⟨Tup.point 0 0 (-4), Tup.dir 0 0 1⟩

/-- The (n1, n2) pair `prepare_computation` derives for the k-th
intersection of the scenario. -/
def gsN (k : ℕ) : ℚ × ℚ :=
  match gsXs.get? k with
  | some i => ((prepareComputation i gsRay gsXs).n1, (prepareComputation i gsRay gsXs).n2)
  | none => (0, 0)

/-- The t = {5, 7, -3, 2} intersection list of the hit-selection scenario
(intersection.rs test lines 331-348). -/
def hitXsA : List (Inter ℚ) := [⟨0, 5, sphereQ⟩, ⟨1, 7, sphereQ⟩, ⟨2, -3, sphereQ⟩, ⟨3, 2, sphereQ⟩]

/-- The t = {-1, -2} intersection list (intersection.rs test lines 318-329). -/
def hitXsB : List (Inter ℚ) := [⟨0, -1, sphereQ⟩, ⟨1, -2, sphereQ⟩]

/-- The t = {-1, 1} intersection list (intersection.rs test lines 303-316). -/
def hitXsC : List (Inter ℚ) := [⟨0, -1, sphereQ⟩, ⟨1, 1, sphereQ⟩]

/-- An intersection list whose only member has t = 0. -/
def hitXsZero : List (Inter ℚ) := [⟨0, 0, sphereQ⟩]

/-- `Tuple::magnitude` (math/tuple.rs): square root of the sum of the
squared components. -/
noncomputable def Tup.magnitude (t : Tup ℝ) : ℝ :=
  Real.sqrt (t.x ^ 2 + t.y ^ 2 + t.z ^ 2 + t.w ^ 2)

/-- `Tuple::normalize` (math/tuple.rs): every component divided by the
magnitude. -/
noncomputable def Tup.normalize (t : Tup ℝ) : Tup ℝ :=
  ⟨t.x / t.magnitude, t.y / t.magnitude, t.z / t.magnitude, t.w / t.magnitude⟩

/-- Model of `PointLight` (src/src/scene/light.rs). -/
structure PointLight where
  position : Tup ℝ
  intensity : Col ℝ

/-- `Material::lighting` (src/src/scene/shading/material.rs lines 36-83):
Phong shading.  The base colour comes from the pattern when present;
ambient is unconditional; diffuse and specular stay black unless the
point is unshadowed and the light is on the normal's side; specular
additionally needs the reflected light vector to point toward the eye. -/
noncomputable def lighting (m : Mat ℝ) (light : PointLight)
    (position eyeV normalV : Tup ℝ) (inShadow : Bool) : Col ℝ :=
  let color := match m.patternAt with
    | some pat => pat position
    | none => m.color
  let effectiveColor := color * light.intensity
  let lightV := (light.position - position).normalize
  let ambient := effectiveColor * m.ambient
  let lightDotNormal := lightV.dot normalV
  let ds : Col ℝ × Col ℝ :=
    if inShadow = false ∧ 0 ≤ lightDotNormal then
      let diffuse := effectiveColor * m.diffuse * lightDotNormal
      let reflectV := (-lightV).reflect normalV
      let reflectDotEye := reflectV.dot eyeV
      if 0 < reflectDotEye then
        (diffuse, light.intensity * m.specular * (reflectDotEye ^ m.shininess))
      else (diffuse, blackC)
    else (blackC, blackC)
  ambient + ds.1 + ds.2

/-- The common tail of `Computation::schlick` (intersection.rs lines
177-179): `r0 + (1 - r0) * (1 - cos)^5` with
`r0 = ((n1 - n2) / (n1 + n2))^2`. -/
noncomputable def schlickTail (n1 n2 cos : ℝ) : ℝ :=
  let r0 := ((n1 - n2) / (n1 + n2)) ^ 2
  r0 + (1 - r0) * (1 - cos) ^ 5

/-- `Computation::schlick` (intersection.rs lines 159-180): Fresnel
reflectance.  When n1 > n2, detect total internal reflection
(`sin2_t > 1` returns 1) and otherwise replace the cosine by cos θt;
then evaluate the common tail. -/
noncomputable def schlick (c : Comp ℝ) : ℝ :=
  let cos := c.eyeV.dot c.normalV
  if c.n1 > c.n2 then
    let n := c.n1 / c.n2
    let sin2t := n ^ 2 * (1 - cos ^ 2)
    if 1 < sin2t then 1
    else schlickTail c.n1 c.n2 (Real.sqrt (1 - sin2t))
  else schlickTail c.n1 c.n2 cos

/-- Model of `World` (src/src/scene/world.rs lines 9-12): an optional
point light and the owned shape collection. -/
structure World where
  light : Option PointLight
  objects : List (Shp ℝ)

/-- `World::intersect` (scene/world.rs lines 108-119): merge every
object's intersections and sort by ascending t.  The `Intersection`
records receive pairwise distinct identities (fresh UUIDs in the
source); `sort_by` is Rust's stable sort, embedded as insertion sort,
which is stable for the same comparator. -/
noncomputable def worldIntersect (w : World) (r : Rayt ℝ) : List (Inter ℝ) :=
  let pairs : List (ℝ × Shp ℝ) := w.objects.foldl (fun acc obj =>
    match obj.intersectT r with
    | some ts => acc ++ ts.map (fun t => (t, obj))
    | none => acc) []
  let xs := pairs.enum.map (fun p => Inter.mk p.1 p.2.1 p.2.2)
  List.insertionSort (fun a b => a.t ≤ b.t) xs

/-- `World::is_shadowed` (scene/world.rs lines 90-106): `false` when the
world has no light; otherwise cast a ray from the point toward the light
and report whether the hit, if any, is strictly closer than the light. -/
noncomputable def isShadowed (w : World) (point : Tup ℝ) : Bool :=
  match w.light with
  | none => false
  | some light =>
    let directionV := light.position - point
    let distance := directionV.magnitude
    let direction := directionV.normalize
    match hit (worldIntersect w ⟨point, direction⟩) with
    | some h => decide (h.t < distance)
    | none => false

mutual

/-- `World::color_at` (scene/world.rs lines 22-32): intersect the world,
shade the hit if there is one, else black.  A `none` result models a
panic (reachable through `shade_hit`'s `self.light.unwrap()`). -/
noncomputable def colorAt (w : World) (r : Rayt ℝ) (rem : ℕ) : Option (Col ℝ) :=
  let xs := worldIntersect w r
  match hit xs with
  | some h => shadeHit w (prepareComputation h r xs) rem
  | none => some blackC
termination_by (rem, 2)

/-- `World::shade_hit` (scene/world.rs lines 121-145): surface lighting
at `over_point` with its shadow state, plus the reflected and refracted
contributions, Schlick-blended when the material is both reflective and
transparent.  `self.light.unwrap()` panics when the light is absent,
modelled by `none`. -/
noncomputable def shadeHit (w : World) (c : Comp ℝ) (rem : ℕ) : Option (Col ℝ) :=
  let isShad := isShadowed w c.overPoint
  match w.light with
  | none => none
  | some l =>
    let surface := lighting c.object.material l c.overPoint c.eyeV c.normalV isShad
    (reflectedColor w c rem).bind fun refl =>
      (refractedColor w c rem).map fun refr =>
        let m := c.object.material
        if 0 < m.reflective ∧ 0 < m.transparency then
          surface + refl * schlick c + refr * (1 - schlick c)
        else surface + refl + refr
termination_by (rem, 1)

/-- `World::reflected_color` (scene/world.rs lines 34-51): black when the
depth is exhausted or the material is not reflective; otherwise recurse
on the reflection ray from `over_point` with `remaining - 1` and scale
by the reflectivity. -/
noncomputable def reflectedColor (w : World) (c : Comp ℝ) (rem : ℕ) : Option (Col ℝ) :=
  if rem ≤ 0 then some blackC
  else if c.object.material.reflective = 0 then some blackC
  else (colorAt w ⟨c.overPoint, c.reflectV⟩ (rem - 1)).map fun col =>
    col * c.object.material.reflective
termination_by (rem, 0)

/-- `World::refracted_color` (scene/world.rs lines 53-88): black when the
depth is exhausted, the material is opaque, or under total internal
reflection; otherwise recurse on the Snell refraction ray from
`under_point` with `remaining - 1` and scale by the transparency. -/
noncomputable def refractedColor (w : World) (c : Comp ℝ) (rem : ℕ) : Option (Col ℝ) :=
  if rem ≤ 0 then some blackC
  else if c.object.material.transparency = 0 then some blackC
  else
    let nr := c.n1 / c.n2
    let cosI := c.eyeV.dot c.normalV
    let sin2t := nr ^ 2 * (1 - cosI ^ 2)
    if 1 < sin2t then some blackC
    else
      let cosT := Real.sqrt (1 - sin2t)
      let direction := c.normalV * (nr * cosI - cosT) - c.eyeV * nr
      (colorAt w ⟨c.underPoint, direction⟩ (rem - 1)).map fun col =>
        col * c.object.material.transparency
termination_by (rem, 0)

end

/-- `Sphere::intersect` (src/src/sphere.rs lines 32-56) for the
untransformed unit sphere of the claim: the source first transforms the
ray by the inverse of the sphere's transform, which is the identity
here, leaving the ray unchanged; then it solves
`|O + tD|^2 = 1` and returns both roots in the order
`(-b - sqrt disc) / 2a`, `(-b + sqrt disc) / 2a`, or no hit when the
discriminant is negative. -/
noncomputable def sphereIntersect (r : Rayt ℝ) : Option (List ℝ) :=
  let sphereToRay := r.origin - Tup.point 0 0 0
  let a := r.direction.dot r.direction
  let b := 2 * r.direction.dot sphereToRay
  let c := sphereToRay.dot sphereToRay - 1
  let disc := b ^ 2 - 4 * a * c
  if disc < 0 then none
  else some [(-b - Real.sqrt disc) / (2 * a), (-b + Real.sqrt disc) / (2 * a)]

/-- Model of `Cone` (src/src/primitives/cone.rs lines 8-13): its shape
properties are reduced to the identity and material the other claims
use; `f64::NEG_INFINITY`/`INFINITY` bounds are left as plain field
values. -/
structure Cone where
  id : ℕ
  material : Mat ℝ
  yMin : ℝ
  yMax : ℝ
  closed : Bool

/-- `Cone::local_normal_at` (cone.rs lines 39-41): the body is `todo!()`,
i.e. an unconditional panic, modelled as `none` for every input. -/
noncomputable def coneLocalNormalAt (_c : Cone) (_point : Tup ℝ) : Option (Tup ℝ) := none

/-- A test shape on the ℝ side: it reports a hit at t = 1 for every ray
and a constant normal, with the default material (mirroring the
`TestShape` device of shape.rs's tests). -/
noncomputable def probeShape : Shp ℝ :=
  ⟨0, defaultMat, fun _ => Tup.dir 0 0 (-1), fun _ => some [1]⟩

/-- A world with no light source and one object. -/
noncomputable def noLightWorld : World := ⟨none, [probeShape]⟩

/-- A ray that hits `probeShape` (any ray does; this one mirrors the
usual (0,0,-5) → +z probe). -/
noncomputable def probeRay : Rayt ℝ := ⟨Tup.point 0 0 (-5), Tup.dir 0 0 1⟩

/-- A fully reflective plane `y = yOff` as a `&dyn Shape`: plane.rs's
`local_intersect` (no hit when the ray is parallel within EPSILON, else
`t = -origin.y / direction.y`) composed with the `translation(0, yOff, 0)`
transform, and the constant plane normal. -/
noncomputable def mirrorPlane (id : ℕ) (yOff : ℝ) : Shp ℝ :=
  ⟨id, { defaultMat with reflective := 1 },
    fun _ => Tup.dir 0 1 0,
    fun r => if |r.direction.y| < (EPS : ℝ) then none
      else some [(-(r.origin.y - yOff)) / r.direction.y]⟩

/-- The mutually-reflective scene of scene/world.rs's test lines 442-464:
a light at the origin between a fully reflective lower plane at y = -1
and upper plane at y = 1. -/
noncomputable def mirrorWorld : World :=
  ⟨some ⟨Tup.point 0 0 0, whiteC⟩, [mirrorPlane 1 (-1), mirrorPlane 2 1]⟩

/-- The ray fired between the two mirrors: origin, straight up. -/
noncomputable def mirrorRay : Rayt ℝ := ⟨Tup.point 0 0 0, Tup.dir 0 1 0⟩

/-- A computation prepared on the ℝ side for witnesses: `probeShape` hit
by `probeRay` at t = 1 with an empty intersection list. -/
noncomputable def probeComp : Comp ℝ := prepareComputation ⟨0, 1, probeShape⟩ probeRay []

/-- The glass sphere of the perpendicular Schlick scenario on the ℝ side. -/
noncomputable def glassSphereR : Shp ℝ :=
  ⟨0, { defaultMat with transparency := 1, refractiveIndex := 3 / 2 },
    fun p => p - Tup.point 0 0 0, fun _ => none⟩

/-- The computation of intersection.rs's test lines 516-528: a ray from
the centre of a glass sphere meets it perpendicularly at t = 1, exiting
glass (n1 = 1.5) into air (n2 = 1); the ray is inside, so the normal is
flipped to coincide with the eye vector and `eye.dot(normal) = 1`. -/
noncomputable def perpComp : Comp ℝ :=
  { t := 1, object := glassSphereR, point := Tup.point 0 1 0,
    overPoint := Tup.point 0 1 0, underPoint := Tup.point 0 1 0,
    eyeV := Tup.dir 0 (-1) 0, normalV := Tup.dir 0 (-1) 0,
    reflectV := Tup.dir 0 1 0, inside := true, n1 := 3 / 2, n2 := 1 }

/-- A point light placed at (0, 0, -10) with white intensity, the usual
lighting-test arrangement of material.rs's tests. -/
noncomputable def shadowDemoLight : PointLight := ⟨Tup.point 0 0 (-10), whiteC⟩

section OpLemmas

/-- Unfolding lemma for tuple addition. -/
theorem Tup.add_coords (a b : Tup K) :
    a + b = ⟨a.x + b.x, a.y + b.y, a.z + b.z, a.w + b.w⟩ := rfl

/-- Unfolding lemma for tuple subtraction. -/
theorem Tup.sub_coords (a b : Tup K) :
    a - b = ⟨a.x - b.x, a.y - b.y, a.z - b.z, a.w - b.w⟩ := rfl

/-- Unfolding lemma for tuple negation. -/
theorem Tup.neg_coords (a : Tup K) : -a = ⟨-a.x, -a.y, -a.z, -a.w⟩ := rfl

/-- Unfolding lemma for tuple scaling. -/
theorem Tup.smul_coords (a : Tup K) (s : K) :
    a * s = ⟨a.x * s, a.y * s, a.z * s, a.w * s⟩ := rfl

/-- Unfolding lemma for colour addition. -/
theorem Col.add_channels (a b : Col K) :
    a + b = ⟨a.red + b.red, a.green + b.green, a.blue + b.blue⟩ := rfl

/-- Unfolding lemma for the Hadamard colour product. -/
theorem Col.mul_channels (a b : Col K) :
    a * b = ⟨a.red * b.red, a.green * b.green, a.blue * b.blue⟩ := rfl

/-- Unfolding lemma for colour scaling. -/
theorem Col.smul_channels (a : Col K) (s : K) :
    a * s = ⟨a.red * s, a.green * s, a.blue * s⟩ := rfl

/-- Adding black is the identity on colours. -/
theorem Col.add_black (c : Col K) : c + blackC = c := by
  cases c; simp [Col.add_channels, blackC]

end OpLemmas

section HitLemmas

/-- Folding the hit loop from a non-empty running result yields a result
that is no farther than the accumulator, is the accumulator or a strictly
positive list member, and is no farther than any strictly positive list
member. -/
theorem foldl_hitStep_some (xs : List (Inter K)) (a : Inter K) :
    ∃ i, xs.foldl hitStep (some a) = some i ∧ i.t ≤ a.t
      ∧ (i = a ∨ (i ∈ xs ∧ 0 < i.t))
      ∧ ∀ j ∈ xs, 0 < j.t → i.t ≤ j.t := by
  induction xs generalizing a with
  | nil => exact ⟨a, rfl, le_refl _, Or.inl rfl, by simp⟩
  | cons j rest ih =>
    by_cases hj : 0 < j.t
    · by_cases hlt : j.t < a.t
      · obtain ⟨i, hfold, hle, hmem, hmin⟩ := ih j
        refine ⟨i, ?_, (lt_of_le_of_lt hle hlt).le, ?_, ?_⟩
        · simpa [List.foldl_cons, hitStep, hj, hlt] using hfold
        · rcases hmem with rfl | ⟨hm, hp⟩
          · exact Or.inr ⟨List.mem_cons_self _ _, hj⟩
          · exact Or.inr ⟨List.mem_cons_of_mem _ hm, hp⟩
        · intro k hk hkp
          rcases List.mem_cons.1 hk with rfl | hk
          · exact hle
          · exact hmin k hk hkp
      · obtain ⟨i, hfold, hle, hmem, hmin⟩ := ih a
        refine ⟨i, ?_, hle, ?_, ?_⟩
        · simpa [List.foldl_cons, hitStep, hj, hlt] using hfold
        · rcases hmem with rfl | ⟨hm, hp⟩
          · exact Or.inl rfl
          · exact Or.inr ⟨List.mem_cons_of_mem _ hm, hp⟩
        · intro k hk hkp
          rcases List.mem_cons.1 hk with rfl | hk
          · exact le_trans hle (not_lt.1 hlt)
          · exact hmin k hk hkp
    · obtain ⟨i, hfold, hle, hmem, hmin⟩ := ih a
      refine ⟨i, ?_, hle, ?_, ?_⟩
      · simpa [List.foldl_cons, hitStep, hj] using hfold
      · rcases hmem with rfl | ⟨hm, hp⟩
        · exact Or.inl rfl
        · exact Or.inr ⟨List.mem_cons_of_mem _ hm, hp⟩
      · intro k hk hkp
        rcases List.mem_cons.1 hk with rfl | hk
        · exact absurd hkp hj
        · exact hmin k hk hkp

/-- The hit loop returns nothing exactly when no stored intersection has a
strictly positive t. -/
theorem hit_eq_none_iff (xs : List (Inter K)) :
    hit xs = none ↔ ∀ j ∈ xs, ¬0 < j.t := by
  induction xs with
  | nil => simp [hit]
  | cons j rest ih =>
    by_cases hj : 0 < j.t
    · obtain ⟨i, hfold, -, -, -⟩ := foldl_hitStep_some rest j
      have hsome : hit (j :: rest) = some i := by
        simpa [hit, List.foldl_cons, hitStep, hj] using hfold
      simp only [hsome]
      constructor
      · intro h; exact absurd h (by simp)
      · intro h; exact absurd hj (h j (List.mem_cons_self _ _))
    · have : hit (j :: rest) = hit rest := by
        simp [hit, List.foldl_cons, hitStep, hj]
      rw [this, ih]
      constructor
      · intro h k hk hkp
        rcases List.mem_cons.1 hk with rfl | hk
        · exact hj hkp
        · exact h k hk hkp
      · intro h k hk; exact h k (List.mem_cons_of_mem _ hk)

/-- When the hit loop returns an intersection, it is a member of the list,
its t is strictly positive, and it is no farther than any other strictly
positive member. -/
theorem hit_eq_some_spec (xs : List (Inter K)) (i : Inter K) :
    hit xs = some i → i ∈ xs ∧ 0 < i.t ∧ ∀ j ∈ xs, 0 < j.t → i.t ≤ j.t := by
  induction xs with
  | nil => intro h; simp [hit] at h
  | cons j rest ih =>
    intro h
    by_cases hj : 0 < j.t
    · obtain ⟨i', hfold, hle, hmem, hmin⟩ := foldl_hitStep_some rest j
      have hsome : hit (j :: rest) = some i' := by
        simpa [hit, List.foldl_cons, hitStep, hj] using hfold
      have hii : i' = i := by rw [hsome] at h; exact Option.some.inj h
      subst hii
      refine ⟨?_, ?_, ?_⟩
      · rcases hmem with rfl | ⟨hm, -⟩
        · exact List.mem_cons_self _ _
        · exact List.mem_cons_of_mem _ hm
      · rcases hmem with rfl | ⟨-, hp⟩
        · exact hj
        · exact hp
      · intro k hk hkp
        rcases List.mem_cons.1 hk with rfl | hk
        · exact hle
        · exact hmin k hk hkp
    · have hstep : hit (j :: rest) = hit rest := by
        simp [hit, List.foldl_cons, hitStep, hj]
      rw [hstep] at h
      obtain ⟨hm, hp, hmin⟩ := ih h
      refine ⟨List.mem_cons_of_mem _ hm, hp, ?_⟩
      intro k hk hkp
      rcases List.mem_cons.1 hk with rfl | hk
      · exact absurd hkp hj
      · exact hmin k hk hkp

end HitLemmas

section ScanLemmas

/-- The last-container refractive index of the code agrees with the
spec-worded one. -/
theorem lastRefr_eq_specRefr (l : List (Shp K)) : lastRefr l = specRefr l := by
  cases h : l.getLast? <;> simp [lastRefr, specRefr, h]

/-- The position-based containers toggle of the code agrees with the
membership-worded toggle of the spec. -/
theorem toggleContainer_eq_specToggle (l : List (Shp K)) (obj : Shp K) :
    toggleContainer l obj = specToggle l obj := by
  induction l with
  | nil => simp [toggleContainer, specToggle]
  | cons s rest ih =>
    by_cases h : (s.id == obj.id) = true
    · simp [toggleContainer, specToggle, List.findIdx?_cons, h]
    · have hcons : toggleContainer (s :: rest) obj
          = match (rest.findIdx? (fun x => x.id == obj.id)).map (· + 1) with
            | some idx => (s :: rest).eraseIdx idx
            | none => (s :: rest) ++ [obj] := by
        simp [toggleContainer, List.findIdx?_cons, h, List.findIdx?_start_succ]
      cases hf : rest.findIdx? (fun x => x.id == obj.id) with
      | none =>
        have hany : rest.any (fun x => x.id == obj.id) = false := by
          rw [List.any_eq_false]
          intro x hx
          simpa using List.findIdx?_eq_none_iff.1 hf x hx
        rw [hcons, hf]
        simp [specToggle, h, hany]
      | some k =>
        have hany : rest.any (fun x => x.id == obj.id) = true := by
          have := @List.findIdx?_isSome _ rest (fun x => x.id == obj.id)
          rw [hf] at this
          simpa using this.symm
        have hl : toggleContainer rest obj = rest.eraseIdx k := by
          simp [toggleContainer, hf]
        have hr : specToggle rest obj = rest.eraseP (fun x => x.id == obj.id) := by
          simp [specToggle, hany]
        have lhs : toggleContainer (s :: rest) obj = s :: rest.eraseIdx k := by
          rw [hcons, hf]
          rfl
        have rhs : specToggle (s :: rest) obj
            = s :: rest.eraseP (fun x => x.id == obj.id) := by
          simp [specToggle, List.any_cons, h, hany, List.eraseP_cons]
        rw [lhs, rhs]
        exact congrArg (s :: .) (hl.symm.trans (ih.trans hr))

/-- The n1/n2 loop of the code agrees with the spec-worded containers
scan, from any starting containers list. -/
theorem refractScan_eq_specScan (self : Inter K) (xs : List (Inter K)) :
    ∀ containers, refractScan self xs containers = specScan self xs containers := by
  induction xs with
  | nil => intro containers; rfl
  | cons i rest ih =>
    intro containers
    by_cases h : (i == self) = true
    · simp [refractScan, specScan, h, lastRefr_eq_specRefr, toggleContainer_eq_specToggle]
    · simp [refractScan, specScan, h, toggleContainer_eq_specToggle, ih]

/-- The scan misses a target that matches no identity in the list and
leaves n1 and n2 at their initial value 0. -/
theorem refractScan_no_match (self : Inter K) (xs : List (Inter K)) :
    (∀ i ∈ xs, i.id ≠ self.id) →
    ∀ containers, refractScan self xs containers = (0, 0) := by
  induction xs with
  | nil => intro _ containers; rfl
  | cons i rest ih =>
    intro h containers
    have hne : (i == self) = false := by
      have := h i (List.mem_cons_self _ _)
      simpa [BEq.beq] using this
    simp [refractScan, hne]
    exact ih (fun k hk => h k (List.mem_cons_of_mem _ hk)) _

end ScanLemmas

/-- C1 counterexample: over the single intersection with t = 0, `hit()`
returns none although not every stored t is negative, refuting both the
smallest-non-negative reading (t = 0 would have to qualify) and the
none-exactly-when-all-negative reading. -/
theorem hitSelection_zero_counterexample :
    hit hitXsZero = none ∧ ¬∀ j ∈ hitXsZero, j.t < 0 := by
  refine ⟨rfl, fun h => ?_⟩
  have h0 := h ⟨0, 0, sphereQ⟩ (by simp [hitXsZero])
  norm_num at h0

/-- C1 (amended): `hit()` returns none exactly when no stored
intersection has a strictly positive t, and otherwise returns a stored
intersection with the smallest strictly positive t (t = 0 does not
qualify); over t-values {5, 7, -3, 2} it returns the one with t = 2,
over {-1, -2} none, and over {-1, 1} the one with t = 1. -/
theorem hitSelection_spec :
    (∀ xs : List (Inter ℚ), hit xs = none ↔ ∀ j ∈ xs, j.t ≤ 0)
  ∧ (∀ (xs : List (Inter ℚ)) i, hit xs = some i →
      i ∈ xs ∧ 0 < i.t ∧ ∀ j ∈ xs, 0 < j.t → i.t ≤ j.t)
  ∧ (hit hitXsA).map Inter.t = some 2
  ∧ hit hitXsB = none
  ∧ (hit hitXsC).map Inter.t = some 1 := by
  refine ⟨fun xs => ?_, fun xs i h => hit_eq_some_spec xs i h, rfl, rfl, rfl⟩
  rw [hit_eq_none_iff]
  exact forall₂_congr fun j _ => not_lt

/-- C1 witness: the amended theorem applied to the {5, 7, -3, 2} list,
whose hit is the t = 2 intersection. -/
theorem hitSelection_spec_witness :
    (⟨3, 2, sphereQ⟩ : Inter ℚ) ∈ hitXsA ∧ 0 < (⟨3, 2, sphereQ⟩ : Inter ℚ).t
      ∧ ∀ j ∈ hitXsA, 0 < j.t → (⟨3, 2, sphereQ⟩ : Inter ℚ).t ≤ j.t :=
  hitSelection_spec.2.1 hitXsA ⟨3, 2, sphereQ⟩ rfl

/-- C2: `prepare_computation` derives (n1, n2) exactly as the spec's
containers-stack scan prescribes, and on the three-overlapping-glass-
spheres scenario the six successive intersections yield
(1.0, 1.5), (1.5, 2.0), (2.0, 2.5), (2.5, 2.5), (2.5, 1.5), (1.5, 1.0). -/
theorem refractionScan_spec :
    (∀ (self : Inter ℚ) (ray : Rayt ℚ) (xs : List (Inter ℚ)),
      ((prepareComputation self ray xs).n1, (prepareComputation self ray xs).n2)
        = specScan self xs [])
  ∧ gsN 0 = (1, 3 / 2) ∧ gsN 1 = (3 / 2, 2) ∧ gsN 2 = (2, 5 / 2)
  ∧ gsN 3 = (5 / 2, 5 / 2) ∧ gsN 4 = (5 / 2, 3 / 2) ∧ gsN 5 = (3 / 2, 1) := by
  refine ⟨fun self ray xs => ?_, rfl, rfl, rfl, rfl, rfl, rfl⟩
  show ((refractScan self xs []).1, (refractScan self xs []).2) = specScan self xs []
  rw [refractScan_eq_specScan self xs []]

/-- C9: `Intersection` equality is identity only — two intersections
compare equal exactly when their identities match — so a target whose
identity occurs nowhere in the scanned list (for example when the list
is empty) is never matched and the computation keeps n1 = n2 = 0.0
instead of the vacuum default 1.0. -/
theorem intersectionIdentity_spec :
    (∀ i j : Inter ℚ, (i == j) = (i.id == j.id))
  ∧ (∀ (self : Inter ℚ) (ray : Rayt ℚ) (xs : List (Inter ℚ)),
      (∀ i ∈ xs, i.id ≠ self.id) →
      (prepareComputation self ray xs).n1 = 0 ∧ (prepareComputation self ray xs).n2 = 0)
  ∧ (prepareComputation ⟨0, 1, sphereQ⟩ gsRay ([] : List (Inter ℚ))).n1 = 0
  ∧ (prepareComputation ⟨0, 1, sphereQ⟩ gsRay ([] : List (Inter ℚ))).n2 = 0
  ∧ (prepareComputation ⟨0, 1, sphereQ⟩ gsRay ([] : List (Inter ℚ))).n1 ≠ 1 := by
  refine ⟨fun i j => rfl, fun self ray xs h => ?_, rfl, rfl, ?_⟩
  case refine_2 =>
    have h0 : (prepareComputation (⟨0, 1, sphereQ⟩ : Inter ℚ) gsRay
        ([] : List (Inter ℚ))).n1 = 0 := rfl
    rw [h0]
    norm_num
  have hs := refractScan_no_match self xs h []
  constructor
  · show (refractScan self xs []).1 = 0
    rw [hs]
  · show (refractScan self xs []).2 = 0
    rw [hs]

/-- C9 witness: the identity-miss part applied to the six-intersection
list with a target identity 99 that occurs nowhere in it. -/
theorem intersectionIdentity_spec_witness :
    (prepareComputation ⟨99, 1, sphereQ⟩ gsRay gsXs).n1 = 0
      ∧ (prepareComputation ⟨99, 1, sphereQ⟩ gsRay gsXs).n2 = 0 :=
  intersectionIdentity_spec.2.1 ⟨99, 1, sphereQ⟩ gsRay gsXs
    (by intro i hi; fin_cases hi <;> simp [gsXs, gsA, gsB, gsC, glassSphere])

/-- C5: `schlick()` returns exactly 1 under total internal reflection
(n1 > n2 and (n1/n2)^2 * (1 - (eye.normal)^2) > 1), and otherwise
returns r0 + (1 - r0) * (1 - cos)^5 with r0 = ((n1-n2)/(n1+n2))^2, the
cosine being replaced by cos θt when n1 > n2; for the perpendicular
glass-sphere computation (n = 1.5 against air) the result is exactly
0.04 = 1/25. -/
theorem schlick_spec :
    (∀ c : Comp ℝ,
      (c.n2 < c.n1 → 1 < (c.n1 / c.n2) ^ 2 * (1 - (c.eyeV.dot c.normalV) ^ 2) →
        schlick c = 1)
      ∧ (c.n2 < c.n1 → ¬1 < (c.n1 / c.n2) ^ 2 * (1 - (c.eyeV.dot c.normalV) ^ 2) →
        schlick c = ((c.n1 - c.n2) / (c.n1 + c.n2)) ^ 2
          + (1 - ((c.n1 - c.n2) / (c.n1 + c.n2)) ^ 2)
            * (1 - Real.sqrt (1 - (c.n1 / c.n2) ^ 2 * (1 - (c.eyeV.dot c.normalV) ^ 2))) ^ 5)
      ∧ (¬c.n2 < c.n1 →
        schlick c = ((c.n1 - c.n2) / (c.n1 + c.n2)) ^ 2
          + (1 - ((c.n1 - c.n2) / (c.n1 + c.n2)) ^ 2) * (1 - c.eyeV.dot c.normalV) ^ 5))
  ∧ schlick perpComp = 1 / 25 := by
  constructor
  · intro c
    refine ⟨fun h1 h2 => ?_, fun h1 h2 => ?_, fun h1 => ?_⟩
    · simp [schlick, gt_iff_lt, h1, h2]
    · simp [schlick, schlickTail, gt_iff_lt, h1, h2]
    · simp [schlick, schlickTail, gt_iff_lt, h1]
  · have h1 : perpComp.n2 < perpComp.n1 := by norm_num [perpComp]
    have hcos : perpComp.eyeV.dot perpComp.normalV = 1 := by
      norm_num [perpComp, Tup.dot, Tup.dir]
    simp only [schlick, schlickTail, hcos, gt_iff_lt, h1, if_true]
    norm_num [perpComp, Real.sqrt_one]

/-- C5 witness: the non-total-internal-reflection branch of the theorem
applied to the perpendicular glass-sphere computation. -/
theorem schlick_spec_witness :
    schlick perpComp = ((perpComp.n1 - perpComp.n2) / (perpComp.n1 + perpComp.n2)) ^ 2
      + (1 - ((perpComp.n1 - perpComp.n2) / (perpComp.n1 + perpComp.n2)) ^ 2)
        * (1 - Real.sqrt (1 - (perpComp.n1 / perpComp.n2) ^ 2
            * (1 - (perpComp.eyeV.dot perpComp.normalV) ^ 2))) ^ 5 :=
  (schlick_spec.1 perpComp).2.1 (by norm_num [perpComp])
    (by norm_num [perpComp, Tup.dot, Tup.dir])

/-- C6: `lighting()` always contributes the ambient term (base colour
times light intensity times the ambient coefficient); in shadow it
returns the ambient term alone; with the light on the far side of the
surface (negative light-normal cosine) diffuse and specular stay black;
otherwise the diffuse term is colour·intensity·diffuse·cosine and the
specular term is black unless the reflected light vector points toward
the eye, in which case it is intensity·specular·(reflection-eye
cosine)^shininess; the result is the plain per-channel sum. -/
theorem lighting_spec :
    ∀ (m : Mat ℝ) (light : PointLight) (position eyeV normalV : Tup ℝ),
      (lighting m light position eyeV normalV true
        = (match m.patternAt with
            | some pat => pat position
            | none => m.color) * light.intensity * m.ambient)
      ∧ (((light.position - position).normalize.dot normalV) < 0 →
          lighting m light position eyeV normalV false
            = (match m.patternAt with
                | some pat => pat position
                | none => m.color) * light.intensity * m.ambient)
      ∧ (0 ≤ ((light.position - position).normalize.dot normalV) →
          ((-(light.position - position).normalize).reflect normalV).dot eyeV ≤ 0 →
          lighting m light position eyeV normalV false
            = (match m.patternAt with
                | some pat => pat position
                | none => m.color) * light.intensity * m.ambient
              + (match m.patternAt with
                  | some pat => pat position
                  | none => m.color) * light.intensity * m.diffuse
                * ((light.position - position).normalize.dot normalV))
      ∧ (0 ≤ ((light.position - position).normalize.dot normalV) →
          0 < ((-(light.position - position).normalize).reflect normalV).dot eyeV →
          lighting m light position eyeV normalV false
            = (match m.patternAt with
                | some pat => pat position
                | none => m.color) * light.intensity * m.ambient
              + (match m.patternAt with
                  | some pat => pat position
                  | none => m.color) * light.intensity * m.diffuse
                * ((light.position - position).normalize.dot normalV)
              + light.intensity * m.specular
                * (((-(light.position - position).normalize).reflect normalV).dot eyeV
                    ^ m.shininess)) := by
  intro m light position eyeV normalV
  refine ⟨?_, fun h => ?_, fun h h2 => ?_, fun h h2 => ?_⟩
  · simp [lighting, Col.add_black]
  · simp [lighting, h.not_le, Col.add_black]
  · simp [lighting, h, h2.not_lt, Col.add_black]
  · simp [lighting, h, h2]

/-- C6 witness: the light-behind-the-surface branch of the theorem at the
standard arrangement — light at (0, 0, -10), surface at the origin with
normal (0, 0, 1) facing away from the light — returns the ambient term
alone. -/
theorem lighting_spec_witness :
    lighting defaultMat shadowDemoLight (Tup.point 0 0 0) (Tup.dir 0 0 (-1)) (Tup.dir 0 0 1)
        false
      = (match (defaultMat : Mat ℝ).patternAt with
          | some pat => pat (Tup.point 0 0 0)
          | none => (defaultMat : Mat ℝ).color) * shadowDemoLight.intensity
          * (defaultMat : Mat ℝ).ambient :=
  (lighting_spec defaultMat shadowDemoLight (Tup.point 0 0 0) (Tup.dir 0 0 (-1))
    (Tup.dir 0 0 1)).2.1 (by
      have h100 : Real.sqrt 100 = 10 := by
        rw [show (100 : ℝ) = 10 ^ 2 by norm_num]
        exact Real.sqrt_sq (by norm_num)
      norm_num [shadowDemoLight, Tup.normalize, Tup.magnitude, Tup.sub_coords, Tup.dot,
        Tup.point, Tup.dir, h100])

/-- C10: `Cone::local_normal_at` is an unimplemented `todo!()`: it
panics — modelled as `none` — for every cone and every input point, so
no cone hit can be shaded. -/
theorem coneNormal_panics :
    ∀ (c : Cone) (p : Tup ℝ), coneLocalNormalAt c p = none :=
  fun _ _ => rfl

section WorldLemmas

/-- In a world that has a light source, every level of the shading
recursion produces a colour: no branch reaches the light `unwrap`. -/
theorem worldTotal (w : World) (l : PointLight) (hl : w.light = some l) :
    ∀ n : ℕ, (∀ c, ∃ x, reflectedColor w c n = some x)
      ∧ (∀ c, ∃ x, refractedColor w c n = some x)
      ∧ (∀ c, ∃ x, shadeHit w c n = some x)
      ∧ (∀ r, ∃ x, colorAt w r n = some x) := by
  intro n
  induction n with
  | zero =>
    have hrefl : ∀ c : Comp ℝ, reflectedColor w c 0 = some blackC := by
      intro c; simp [reflectedColor]
    have hrefr : ∀ c : Comp ℝ, refractedColor w c 0 = some blackC := by
      intro c; simp [refractedColor]
    have hshade : ∀ c : Comp ℝ, ∃ x, shadeHit w c 0 = some x := by
      intro c
      have hs : (shadeHit w c 0).isSome := by simp [shadeHit, hl, hrefl c, hrefr c]
      exact Option.isSome_iff_exists.1 hs
    refine ⟨fun c => ⟨_, hrefl c⟩, fun c => ⟨_, hrefr c⟩, hshade, ?_⟩
    intro r
    rw [colorAt]
    cases hh : hit (worldIntersect w r) with
    | some h => simpa [hh] using hshade _
    | none => exact ⟨blackC, by simp [hh]⟩
  | succ n ih =>
    obtain ⟨-, -, -, hcolorIH⟩ := ih
    have hrefl : ∀ c : Comp ℝ, ∃ x, reflectedColor w c (n + 1) = some x := by
      intro c
      by_cases h0 : c.object.material.reflective = 0
      · exact ⟨blackC, by simp [reflectedColor, h0]⟩
      · obtain ⟨x, hx⟩ := hcolorIH ⟨c.overPoint, c.reflectV⟩
        exact ⟨x * c.object.material.reflective, by simp [reflectedColor, h0, hx]⟩
    have hrefr : ∀ c : Comp ℝ, ∃ x, refractedColor w c (n + 1) = some x := by
      intro c
      by_cases h0 : c.object.material.transparency = 0
      · exact ⟨blackC, by simp [refractedColor, h0]⟩
      · by_cases htir : 1 < (c.n1 / c.n2) ^ 2 * (1 - (c.eyeV.dot c.normalV) ^ 2)
        · exact ⟨blackC, by simp [refractedColor, h0, htir]⟩
        · obtain ⟨x, hx⟩ := hcolorIH ⟨c.underPoint,
            c.normalV * ((c.n1 / c.n2) * (c.eyeV.dot c.normalV)
              - Real.sqrt (1 - (c.n1 / c.n2) ^ 2 * (1 - (c.eyeV.dot c.normalV) ^ 2)))
              - c.eyeV * (c.n1 / c.n2)⟩
          exact ⟨x * c.object.material.transparency, by simp [refractedColor, h0, htir, hx]⟩
    have hshade : ∀ c : Comp ℝ, ∃ x, shadeHit w c (n + 1) = some x := by
      intro c
      obtain ⟨x, hx⟩ := hrefl c
      obtain ⟨y, hy⟩ := hrefr c
      have hs : (shadeHit w c (n + 1)).isSome := by simp [shadeHit, hl, hx, hy]
      exact Option.isSome_iff_exists.1 hs
    refine ⟨hrefl, hrefr, hshade, ?_⟩
    intro r
    rw [colorAt]
    cases hh : hit (worldIntersect w r) with
    | some h => simpa [hh] using hshade _
    | none => exact ⟨blackC, by simp [hh]⟩

end WorldLemmas

/-- C3: the recursion of `color_at` through `reflected_color` and
`refracted_color` returns black as soon as the remaining depth is 0 and
passes `remaining - 1` (never a reset value) to every recursive call, so
the evaluation is total at every finite depth: in a lit world every ray
and every depth produce a colour, mutually reflective planes included. -/
theorem recursionDepth_spec :
    (∀ (w : World) (c : Comp ℝ), reflectedColor w c 0 = some blackC)
  ∧ (∀ (w : World) (c : Comp ℝ), refractedColor w c 0 = some blackC)
  ∧ (∀ (w : World) (c : Comp ℝ) (n : ℕ), reflectedColor w c (n + 1) =
      if c.object.material.reflective = 0 then some blackC
      else (colorAt w ⟨c.overPoint, c.reflectV⟩ n).map fun col =>
        col * c.object.material.reflective)
  ∧ (∀ (w : World) (c : Comp ℝ) (n : ℕ), refractedColor w c (n + 1) =
      if c.object.material.transparency = 0 then some blackC
      else if 1 < (c.n1 / c.n2) ^ 2 * (1 - (c.eyeV.dot c.normalV) ^ 2) then some blackC
      else (colorAt w ⟨c.underPoint,
          c.normalV * ((c.n1 / c.n2) * (c.eyeV.dot c.normalV)
            - Real.sqrt (1 - (c.n1 / c.n2) ^ 2 * (1 - (c.eyeV.dot c.normalV) ^ 2)))
          - c.eyeV * (c.n1 / c.n2)⟩ n).map fun col =>
        col * c.object.material.transparency)
  ∧ (∀ (w : World) (l : PointLight) (r : Rayt ℝ) (n : ℕ), w.light = some l →
      ∃ col, colorAt w r n = some col) := by
  refine ⟨fun w c => by simp [reflectedColor],
    fun w c => by simp [refractedColor],
    fun w c n => by simp [reflectedColor],
    fun w c n => by simp [refractedColor],
    fun w l r n hl => (worldTotal w l hl n).2.2.2 r⟩

/-- C3 witness: the two facing fully-reflective planes with depth bound 4
terminate with a colour. -/
theorem recursionDepth_spec_witness :
    ∃ col, colorAt mirrorWorld mirrorRay 4 = some col :=
  recursionDepth_spec.2.2.2.2 mirrorWorld ⟨Tup.point 0 0 0, whiteC⟩ mirrorRay 4 rfl

/-- C4: in a lit world, `shade_hit` returns
surface + reflected·reflectance + refracted·(1 - reflectance) with the
Schlick reflectance when the hit material is both reflective and
transparent, and the plain sum surface + reflected + refracted
otherwise, the surface term being the material lighting evaluated with
the shadow state of `over_point`. -/
theorem shadeHit_spec :
    ∀ (w : World) (l : PointLight) (c : Comp ℝ) (rem : ℕ), w.light = some l →
      shadeHit w c rem = some (
        if 0 < c.object.material.reflective ∧ 0 < c.object.material.transparency then
          lighting c.object.material l c.overPoint c.eyeV c.normalV (isShadowed w c.overPoint)
            + ((reflectedColor w c rem).getD blackC) * schlick c
            + ((refractedColor w c rem).getD blackC) * (1 - schlick c)
        else
          lighting c.object.material l c.overPoint c.eyeV c.normalV (isShadowed w c.overPoint)
            + (reflectedColor w c rem).getD blackC
            + (refractedColor w c rem).getD blackC) := by
  intro w l c rem hl
  obtain ⟨hrefl, hrefr, -, -⟩ := worldTotal w l hl rem
  obtain ⟨x, hx⟩ := hrefl c
  obtain ⟨y, hy⟩ := hrefr c
  simp [shadeHit, hl, hx, hy]

/-- C4 witness: the theorem applied in the lit mirror world to the probe
computation at depth 4. -/
theorem shadeHit_spec_witness :
    ∃ x, shadeHit mirrorWorld probeComp 4 = some x :=
  ⟨_, shadeHit_spec mirrorWorld ⟨Tup.point 0 0 0, whiteC⟩ probeComp 4 rfl⟩

/-- C7 (against the code): with no light source `is_shadowed` is false
everywhere, but shading a hit is not total — `shade_hit` reaches
`self.light.unwrap()` and panics (modelled as `none`), as does
`color_at` on any ray that hits an object, instead of yielding the unlit
colour the spec prescribes. -/
theorem missingLight_spec :
    (∀ (w : World) (p : Tup ℝ), w.light = none → isShadowed w p = false)
  ∧ shadeHit noLightWorld probeComp 4 = none
  ∧ colorAt noLightWorld probeRay 4 = none := by
  refine ⟨fun w p hl => by simp [isShadowed, hl], by simp [shadeHit, noLightWorld], ?_⟩
  have h1 : worldIntersect noLightWorld probeRay = [⟨0, 1, probeShape⟩] := by
    simp [worldIntersect, noLightWorld, probeShape, List.insertionSort, List.orderedInsert]
  have h2 : hit [(⟨0, 1, probeShape⟩ : Inter ℝ)] = some ⟨0, 1, probeShape⟩ := by
    simp [hit, hitStep, zero_lt_one]
  rw [colorAt, h1, h2]
  simp [shadeHit, noLightWorld]

/-- C7 witness: the shadow-test half of the theorem at the unlit world
and the origin. -/
theorem missingLight_spec_witness :
    isShadowed noLightWorld (Tup.point 0 0 0) = false :=
  missingLight_spec.1 noLightWorld (Tup.point 0 0 0) rfl

/-- C8: for every ray with a non-degenerate direction, the sphere
intersection solves the quadratic |O + tD|² = 1: no intersections when
the discriminant is negative, otherwise exactly the two quadratic roots
in ascending order, equal exactly on a tangent (zero discriminant), and
both roots lie on the unit sphere. -/
theorem sphereIntersect_spec (r : Rayt ℝ) (a b c : ℝ)
    (ha : a = r.direction.dot r.direction)
    (hb : b = 2 * r.direction.dot (r.origin - Tup.point 0 0 0))
    (hc : c = (r.origin - Tup.point 0 0 0).dot (r.origin - Tup.point 0 0 0) - 1)
    (hpos : 0 < a) :
    (b ^ 2 - 4 * a * c < 0 → sphereIntersect r = none)
  ∧ (0 ≤ b ^ 2 - 4 * a * c →
      sphereIntersect r = some [(-b - Real.sqrt (b ^ 2 - 4 * a * c)) / (2 * a),
          (-b + Real.sqrt (b ^ 2 - 4 * a * c)) / (2 * a)]
      ∧ (-b - Real.sqrt (b ^ 2 - 4 * a * c)) / (2 * a)
          ≤ (-b + Real.sqrt (b ^ 2 - 4 * a * c)) / (2 * a)
      ∧ (b ^ 2 - 4 * a * c = 0 →
          (-b - Real.sqrt (b ^ 2 - 4 * a * c)) / (2 * a)
            = (-b + Real.sqrt (b ^ 2 - 4 * a * c)) / (2 * a))
      ∧ ∀ t, (t = (-b - Real.sqrt (b ^ 2 - 4 * a * c)) / (2 * a)
            ∨ t = (-b + Real.sqrt (b ^ 2 - 4 * a * c)) / (2 * a)) →
          (r.position t - Tup.point 0 0 0).dot (r.position t - Tup.point 0 0 0) = 1) := by
  subst ha hb hc
  have h2a : (2 : ℝ) * (r.direction.dot r.direction) ≠ 0 := by positivity
  constructor
  · intro h
    simp only [sphereIntersect]
    rw [if_pos h]
  · intro h
    have hs : Real.sqrt ((2 * r.direction.dot (r.origin - Tup.point 0 0 0)) ^ 2
        - 4 * (r.direction.dot r.direction)
          * ((r.origin - Tup.point 0 0 0).dot (r.origin - Tup.point 0 0 0) - 1)) ^ 2
        = (2 * r.direction.dot (r.origin - Tup.point 0 0 0)) ^ 2
          - 4 * (r.direction.dot r.direction)
            * ((r.origin - Tup.point 0 0 0).dot (r.origin - Tup.point 0 0 0) - 1) :=
      Real.sq_sqrt h
    have hsnn := Real.sqrt_nonneg ((2 * r.direction.dot (r.origin - Tup.point 0 0 0)) ^ 2
      - 4 * (r.direction.dot r.direction)
        * ((r.origin - Tup.point 0 0 0).dot (r.origin - Tup.point 0 0 0) - 1))
    refine ⟨?_, ?_, ?_, ?_⟩
    · simp only [sphereIntersect]
      rw [if_neg (not_lt.2 h)]
    · have h2apos : (0 : ℝ) < 2 * (r.direction.dot r.direction) := by linarith
      exact (div_le_div_iff_of_pos_right h2apos).2 (by linarith)
    · intro h0
      rw [h0, Real.sqrt_zero]
      ring
    · intro t ht
      have hexp : (r.position t - Tup.point 0 0 0).dot (r.position t - Tup.point 0 0 0)
          = (r.direction.dot r.direction) * t ^ 2
            + (2 * r.direction.dot (r.origin - Tup.point 0 0 0)) * t
            + (((r.origin - Tup.point 0 0 0).dot (r.origin - Tup.point 0 0 0) - 1) + 1) := by
        obtain ⟨⟨ox, oy, oz, ow⟩, ⟨dx, dy, dz, dw⟩⟩ := r
        simp [Rayt.position, Tup.dot, Tup.add_coords, Tup.sub_coords, Tup.smul_coords, Tup.point]
        ring
      rcases ht with rfl | rfl
      · rw [hexp]
        have key : (r.direction.dot r.direction)
            * ((-(2 * r.direction.dot (r.origin - Tup.point 0 0 0))
                - Real.sqrt ((2 * r.direction.dot (r.origin - Tup.point 0 0 0)) ^ 2
                  - 4 * (r.direction.dot r.direction)
                    * ((r.origin - Tup.point 0 0 0).dot (r.origin - Tup.point 0 0 0) - 1)))
              / (2 * (r.direction.dot r.direction))) ^ 2
            + (2 * r.direction.dot (r.origin - Tup.point 0 0 0))
              * ((-(2 * r.direction.dot (r.origin - Tup.point 0 0 0))
                - Real.sqrt ((2 * r.direction.dot (r.origin - Tup.point 0 0 0)) ^ 2
                  - 4 * (r.direction.dot r.direction)
                    * ((r.origin - Tup.point 0 0 0).dot (r.origin - Tup.point 0 0 0) - 1)))
              / (2 * (r.direction.dot r.direction)))
            + ((r.origin - Tup.point 0 0 0).dot (r.origin - Tup.point 0 0 0) - 1) = 0 := by
          field_simp
          nlinarith [hs]
        linarith [key]
      · rw [hexp]
        have key : (r.direction.dot r.direction)
            * ((-(2 * r.direction.dot (r.origin - Tup.point 0 0 0))
                + Real.sqrt ((2 * r.direction.dot (r.origin - Tup.point 0 0 0)) ^ 2
                  - 4 * (r.direction.dot r.direction)
                    * ((r.origin - Tup.point 0 0 0).dot (r.origin - Tup.point 0 0 0) - 1)))
              / (2 * (r.direction.dot r.direction))) ^ 2
            + (2 * r.direction.dot (r.origin - Tup.point 0 0 0))
              * ((-(2 * r.direction.dot (r.origin - Tup.point 0 0 0))
                + Real.sqrt ((2 * r.direction.dot (r.origin - Tup.point 0 0 0)) ^ 2
                  - 4 * (r.direction.dot r.direction)
                    * ((r.origin - Tup.point 0 0 0).dot (r.origin - Tup.point 0 0 0) - 1)))
              / (2 * (r.direction.dot r.direction)))
            + ((r.origin - Tup.point 0 0 0).dot (r.origin - Tup.point 0 0 0) - 1) = 0 := by
          field_simp
          nlinarith [hs]
        linarith [key]

/-- C8 witness: the axis-aligned probe ray from (0, 0, -5) toward +z has
a = 1, b = -10, c = 24, discriminant 4 ≥ 0, and so receives its two
intersections. -/
theorem sphereIntersect_spec_witness :
    ∃ ts, sphereIntersect ⟨Tup.point 0 0 (-5), Tup.dir 0 0 1⟩ = some ts :=
  ⟨_, ((sphereIntersect_spec ⟨Tup.point 0 0 (-5), Tup.dir 0 0 1⟩ 1 (-10) 24
      (by norm_num [Tup.dot, Tup.dir, Tup.sub_coords, Tup.point])
      (by norm_num [Tup.dot, Tup.dir, Tup.sub_coords, Tup.point])
      (by norm_num [Tup.dot, Tup.dir, Tup.sub_coords, Tup.point])
      (by norm_num)).2 (by norm_num)).1⟩

end RT
